import Mathlib

/-!
Verification of the image transformation pipeline of `rustography`
(`src/image_manipulator.rs`).

The pipeline holds a decoded raster buffer and applies up to three geometric
stages in a fixed order — border compositing, aspect-ratio fill, longest-side
resize — before a single terminal save.

Shallow embedding conventions:

* A raster buffer (`image::DynamicImage` restricted to its RGBA grid view) is
  an `Image`: a width, a height, and a pixel function.  `get_pixel x y` is
  `Image.pix x y`; only values with `x < width` and `y < height` are ever read
  by the code, so buffer equality is `Image.identical` (equal dimensions and
  equal pixels on the domain).
* Pixel channels are 8-bit samples, modelled as `Nat` (the code only ever
  writes channel value 255 or copies existing samples, so no channel
  arithmetic occurs and no truncation is needed).
* The `u32` dimension arithmetic of the Rust code is modelled over `ℕ`.
  Overflow of `width + 2 * spacing` is not modelled: the `image` crate aborts
  on such allocations rather than wrapping around to a usable buffer.
* The `f32` aspect-ratio arithmetic of `calculate_dimensions` is modelled
  exactly over `ℚ`; the `as u32` float-to-int cast saturates at zero in Rust,
  which `Int.toNat` matches.  Rust `i64` division on the (provably
  nonnegative) offsets agrees with `Int` division.
* The nested `for` loops of pixel writes are folds over `List.range`,
  mirroring the source loop structure, and are characterised by lemmas below.
-/

/-- One RGBA pixel: four 8-bit channel samples (`image::Rgba<u8>`). -/
structure Pixel where
  r : Nat
  g : Nat
  b : Nat
  a : Nat
deriving DecidableEq, Repr

/-- The fill colour `Rgba([255; 4])` used by both painting stages: opaque
white, all four channels at the `u8` maximum. -/
def white : Pixel := ⟨255, 255, 255, 255⟩

/-- A decoded raster buffer: a `width × height` grid of RGBA pixels.
`pix x y` is the sample at column `x`, row `y`; only `x < width`,
`y < height` is meaningful. -/
structure Image where
  width : Nat
  height : Nat
  pix : Nat → Nat → Pixel

/-- Byte-identical buffers: same dimensions and the same pixel data at every
in-range coordinate. -/
def Image.identical (a b : Image) : Prop :=
  a.width = b.width ∧ a.height = b.height ∧
    ∀ x y, x < a.width → y < a.height → a.pix x y = b.pix x y

/-- `GenericImage::put_pixel`: overwrite the sample at one coordinate. -/
def put_pixel (img : Image) (px py : Nat) (c : Pixel) : Image :=
  { img with pix := fun x y => if x = px ∧ y = py then c else img.pix x y }

/-- `DynamicImage::resize_exact`: an image of exactly the requested
dimensions.  The pixel content produced by the Lanczos3 resampling filter is
floating-point interpolation; it is left unspecified here (the source grid is
kept as a placeholder), which is sound because both call sites
(`try_add_border` and `fill_to_given_dimensions`) overwrite every pixel of
the resized canvas before using it — a fact the lemmas below prove for an
arbitrary starting canvas. -/
def Image.resize_exact (img : Image) (w h : Nat) : Image :=
  { width := w, height := h, pix := img.pix }

/-- One row of the white-fill loop: `for x in 0..w { put_pixel(x, y, white) }`. -/
def fill_row (img : Image) (w y : Nat) : Image :=
  (List.range w).foldl (fun acc x => put_pixel acc x y white) img

/-- The white-fill loop of both painting stages:
`for y in 0..h { for x in 0..w { put_pixel(x, y, white) } }`. -/
def fill_canvas (img : Image) (w h : Nat) : Image :=
  (List.range h).foldl (fun acc y => fill_row acc w y) img

/-- One row of the paste loop:
`for x in 0..w { put_pixel(x + dx, y + dy, src.get_pixel(x, y)) }`. -/
def paste_row (src img : Image) (w y dx dy : Nat) : Image :=
  (List.range w).foldl (fun acc x => put_pixel acc (x + dx) (y + dy) (src.pix x y)) img

/-- The paste loop of both painting stages: copy the `w × h` source grid into
the canvas at offset `(dx, dy)`. -/
def paste_canvas (src img : Image) (w h dx dy : Nat) : Image :=
  (List.range h).foldl (fun acc y => paste_row src acc w y dx dy) img

theorem put_pixel_width (img : Image) (px py : Nat) (c : Pixel) :
    (put_pixel img px py c).width = img.width := rfl

theorem put_pixel_height (img : Image) (px py : Nat) (c : Pixel) :
    (put_pixel img px py c).height = img.height := rfl

theorem put_pixel_pix (img : Image) (px py x y : Nat) (c : Pixel) :
    (put_pixel img px py c).pix x y = if x = px ∧ y = py then c else img.pix x y := rfl

theorem fill_row_succ (img : Image) (w y : Nat) :
    fill_row img (w + 1) y = put_pixel (fill_row img w y) w y white := by
  simp [fill_row, List.range_succ]

theorem fill_row_width (img : Image) (w y : Nat) :
    (fill_row img w y).width = img.width := by
  induction w with
  | zero => rfl
  | succ n ih => rw [fill_row_succ, put_pixel_width, ih]

theorem fill_row_height (img : Image) (w y : Nat) :
    (fill_row img w y).height = img.height := by
  induction w with
  | zero => rfl
  | succ n ih => rw [fill_row_succ, put_pixel_height, ih]

theorem fill_row_pix (img : Image) (w y x b : Nat) :
    (fill_row img w y).pix x b =
      if x < w ∧ b = y then white else img.pix x b := by
  induction w with
  | zero => simp [fill_row]
  | succ n ih =>
      rw [fill_row_succ, put_pixel_pix, ih]
      by_cases h1 : x = n ∧ b = y
      · simp [h1.1, h1.2]
      · rw [if_neg h1]
        by_cases h2 : x < n ∧ b = y
        · rw [if_pos h2, if_pos ⟨Nat.lt_succ_of_lt h2.1, h2.2⟩]
        · rw [if_neg h2, if_neg (by
            intro h3
            rcases Nat.lt_succ_iff_lt_or_eq.1 h3.1 with h | h
            · exact h2 ⟨h, h3.2⟩
            · exact h1 ⟨h, h3.2⟩)]

theorem fill_canvas_succ (img : Image) (w n : Nat) :
    fill_canvas img w (n + 1) = fill_row (fill_canvas img w n) w n := by
  simp [fill_canvas, List.range_succ]

theorem fill_canvas_width (img : Image) (w h : Nat) :
    (fill_canvas img w h).width = img.width := by
  induction h with
  | zero => rfl
  | succ n ih => rw [fill_canvas_succ, fill_row_width, ih]

theorem fill_canvas_height (img : Image) (w h : Nat) :
    (fill_canvas img w h).height = img.height := by
  induction h with
  | zero => rfl
  | succ n ih => rw [fill_canvas_succ, fill_row_height, ih]

theorem fill_canvas_pix (img : Image) (w h x y : Nat) :
    (fill_canvas img w h).pix x y =
      if x < w ∧ y < h then white else img.pix x y := by
  induction h with
  | zero => simp [fill_canvas]
  | succ n ih =>
      rw [fill_canvas_succ, fill_row_pix, ih]
      by_cases h1 : x < w ∧ y = n
      · simp [h1.1, h1.2]
      · rw [if_neg h1]
        by_cases h2 : x < w ∧ y < n
        · rw [if_pos h2, if_pos ⟨h2.1, Nat.lt_succ_of_lt h2.2⟩]
        · rw [if_neg h2, if_neg (by
            intro h3
            rcases Nat.lt_succ_iff_lt_or_eq.1 h3.2 with h | h
            · exact h2 ⟨h3.1, h⟩
            · exact h1 ⟨h3.1, h⟩)]

theorem paste_row_succ (src img : Image) (w y dx dy : Nat) :
    paste_row src img (w + 1) y dx dy =
      put_pixel (paste_row src img w y dx dy) (w + dx) (y + dy) (src.pix w y) := by
  simp [paste_row, List.range_succ]

theorem paste_row_width (src img : Image) (w y dx dy : Nat) :
    (paste_row src img w y dx dy).width = img.width := by
  induction w with
  | zero => rfl
  | succ n ih => rw [paste_row_succ, put_pixel_width, ih]

theorem paste_row_height (src img : Image) (w y dx dy : Nat) :
    (paste_row src img w y dx dy).height = img.height := by
  induction w with
  | zero => rfl
  | succ n ih => rw [paste_row_succ, put_pixel_height, ih]

theorem paste_row_pix (src img : Image) (w y dx dy a b : Nat) :
    (paste_row src img w y dx dy).pix a b =
      if dx ≤ a ∧ a - dx < w ∧ b = y + dy then src.pix (a - dx) y else img.pix a b := by
  induction w with
  | zero => simp [paste_row]
  | succ n ih =>
      rw [paste_row_succ, put_pixel_pix, ih]
      by_cases h1 : a = n + dx ∧ b = y + dy
      · rw [if_pos h1, if_pos ⟨by omega, by omega, h1.2⟩]
        have han : a - dx = n := by omega
        rw [han]
      · rw [if_neg h1]
        by_cases h2 : dx ≤ a ∧ a - dx < n ∧ b = y + dy
        · rw [if_pos h2, if_pos ⟨h2.1, by omega, h2.2.2⟩]
        · rw [if_neg h2, if_neg (by
            intro h3
            have hsplit : a = n + dx ∨ a - dx < n := by omega
            rcases hsplit with h | h
            · exact h1 ⟨h, h3.2.2⟩
            · exact h2 ⟨h3.1, h, h3.2.2⟩)]

theorem paste_canvas_succ (src img : Image) (w n dx dy : Nat) :
    paste_canvas src img w (n + 1) dx dy =
      paste_row src (paste_canvas src img w n dx dy) w n dx dy := by
  simp [paste_canvas, List.range_succ]

theorem paste_canvas_width (src img : Image) (w h dx dy : Nat) :
    (paste_canvas src img w h dx dy).width = img.width := by
  induction h with
  | zero => rfl
  | succ n ih => rw [paste_canvas_succ, paste_row_width, ih]

theorem paste_canvas_height (src img : Image) (w h dx dy : Nat) :
    (paste_canvas src img w h dx dy).height = img.height := by
  induction h with
  | zero => rfl
  | succ n ih => rw [paste_canvas_succ, paste_row_height, ih]

theorem paste_canvas_pix (src img : Image) (w h dx dy a b : Nat) :
    (paste_canvas src img w h dx dy).pix a b =
      if dx ≤ a ∧ a - dx < w ∧ dy ≤ b ∧ b - dy < h then
        src.pix (a - dx) (b - dy)
      else img.pix a b := by
  induction h with
  | zero => simp [paste_canvas]
  | succ n ih =>
      rw [paste_canvas_succ, paste_row_pix, ih]
      by_cases h1 : dx ≤ a ∧ a - dx < w ∧ b = n + dy
      · rw [if_pos h1, if_pos ⟨h1.1, h1.2.1, by omega, by omega⟩]
        have hbn : b - dy = n := by omega
        rw [hbn]
      · rw [if_neg h1]
        by_cases h2 : dx ≤ a ∧ a - dx < w ∧ dy ≤ b ∧ b - dy < n
        · rw [if_pos h2, if_pos ⟨h2.1, h2.2.1, h2.2.2.1, by omega⟩]
        · rw [if_neg h2, if_neg (by
            intro h3
            rcases Nat.lt_succ_iff_lt_or_eq.1 h3.2.2.2 with h | h
            · exact h2 ⟨h3.1, h3.2.1, h3.2.2.1, h⟩
            · exact h1 ⟨h3.1, h3.2.1, by omega⟩)]

/-- `try_add_border` with the optional `expected_border_spacing` parameter:
when requested, enlarge the canvas to `(w + spacing*2) × (h + spacing*2)`
via `resize_exact`, overwrite every pixel with the white fill colour, then
copy the source grid at offset `(spacing, spacing)`. -/
def try_add_border (img : Image) (expected_border_spacing : Option Nat) : Image :=
  match expected_border_spacing with
  | none => img
  | some spacing =>
      paste_canvas img
        (fill_canvas (img.resize_exact (img.width + spacing * 2) (img.height + spacing * 2))
          (img.width + spacing * 2) (img.height + spacing * 2))
        img.width img.height spacing spacing

theorem try_add_border_width (img : Image) (t : Nat) :
    (try_add_border img (some t)).width = img.width + t * 2 := by
  rw [try_add_border, paste_canvas_width, fill_canvas_width]
  rfl

theorem try_add_border_height (img : Image) (t : Nat) :
    (try_add_border img (some t)).height = img.height + t * 2 := by
  rw [try_add_border, paste_canvas_height, fill_canvas_height]
  rfl

theorem try_add_border_pix_interior (img : Image) (t x y : Nat)
    (hx : x < img.width) (hy : y < img.height) :
    (try_add_border img (some t)).pix (x + t) (y + t) = img.pix x y := by
  rw [try_add_border, paste_canvas_pix, if_pos ⟨by omega, by omega, by omega, by omega⟩]
  have h1 : x + t - t = x := by omega
  have h2 : y + t - t = y := by omega
  rw [h1, h2]

theorem try_add_border_pix_border (img : Image) (t x y : Nat)
    (hx : x < img.width + t * 2) (hy : y < img.height + t * 2)
    (hout : ¬ (t ≤ x ∧ x < t + img.width ∧ t ≤ y ∧ y < t + img.height)) :
    (try_add_border img (some t)).pix x y = white := by
  rw [try_add_border, paste_canvas_pix, if_neg (by
    intro h3
    exact hout ⟨h3.1, by omega, h3.2.2.1, by omega⟩)]
  rw [fill_canvas_pix, if_pos ⟨hx, hy⟩]

/-- A small concrete buffer used to instantiate proved properties. -/
def img2x1 : Image := ⟨2, 1, fun x y => ⟨x, y, 7, 9⟩⟩

/-- C2: for every buffer of size w × h and every border thickness t ≥ 0, the
border stage produces a buffer of size (w+2t) × (h+2t) whose interior
sub-rectangle starting at (t,t) of size (w,h) is byte-identical to the
original buffer, and every pixel outside that interior is opaque white (all
four channels at maximum). -/
theorem border_stage_spec (img : Image) (t : Nat) :
    (try_add_border img (some t)).width = img.width + 2 * t ∧
    (try_add_border img (some t)).height = img.height + 2 * t ∧
    (∀ x y, x < img.width → y < img.height →
      (try_add_border img (some t)).pix (x + t) (y + t) = img.pix x y) ∧
    (∀ x y, x < img.width + 2 * t → y < img.height + 2 * t →
      ¬ (t ≤ x ∧ x < t + img.width ∧ t ≤ y ∧ y < t + img.height) →
      (try_add_border img (some t)).pix x y = white) := by
  refine ⟨?_, ?_, ?_, ?_⟩
  · rw [try_add_border_width]; omega
  · rw [try_add_border_height]; omega
  · intro x y hx hy
    exact try_add_border_pix_interior img t x y hx hy
  · intro x y hx hy hout
    exact try_add_border_pix_border img t x y (by omega) (by omega) hout

/-- Witness for `border_stage_spec` at a concrete 2 × 1 buffer with t = 1. -/
theorem border_stage_spec_witness :
    (try_add_border img2x1 (some 1)).width = 4 ∧
    (try_add_border img2x1 (some 1)).height = 3 ∧
    (try_add_border img2x1 (some 1)).pix 1 1 = img2x1.pix 0 0 ∧
    (try_add_border img2x1 (some 1)).pix 0 0 = white := by
  have h := border_stage_spec img2x1 1
  exact ⟨h.1, h.2.1, h.2.2.1 0 0 (by decide) (by decide),
    h.2.2.2 0 0 (by decide) (by decide) (by decide)⟩

/-- C5: applying the border stage with thickness t = 0 produces a buffer
byte-identical to the input. -/
theorem border_zero_identity (img : Image) :
    Image.identical (try_add_border img (some 0)) img := by
  refine ⟨by rw [try_add_border_width]; omega, by rw [try_add_border_height]; omega, ?_⟩
  intro x y hx hy
  rw [try_add_border_width] at hx
  rw [try_add_border_height] at hy
  rw [try_add_border, paste_canvas_pix, if_pos ⟨by omega, by omega, by omega, by omega⟩]
  simp

/-- `fill_to_given_dimensions`: enlarge the canvas to `width × height` via
`resize_exact`, overwrite every pixel with the white fill colour, then copy
the `orig_width × orig_height` source grid at offset `(x_offset, y_offset)`. -/
def fill_to_given_dimensions (img : Image)
    (width height orig_width orig_height x_offset y_offset : Nat) : Image :=
  paste_canvas img
    (fill_canvas (img.resize_exact width height) width height)
    orig_width orig_height x_offset y_offset

/-- `calculate_dimensions`: the target dimensions for the aspect-ratio fill.
`aspect.1 / aspect.2` is the `f32` quotient `aspect_width / aspect_height`,
modelled exactly over `ℚ`; the `ceil() as u32` casts are `Int.toNat` of the
rational ceiling (the Rust float-to-int cast saturates at zero).  The first
component of the result is `new_width`, the second `new_height`. -/
def calculate_dimensions (original_width original_height : Nat)
    (aspect : ℚ × ℚ) : Nat × Nat :=
  if original_height ≤ (⌈(original_width : ℚ) / (aspect.1 / aspect.2)⌉).toNat then
    (original_width, (⌈(original_width : ℚ) / (aspect.1 / aspect.2)⌉).toNat)
  else
    ((⌈(original_height : ℚ) * (aspect.1 / aspect.2)⌉).toNat, original_height)

/-- The spec's own wording of the target-dimension computation, for the
refinement check of `calculate_dimensions`: candidate_height is
ceil(width / (rw/rh)); if it is at least the height, the target is
(width, candidate_height), else the target is (ceil(height * (rw/rh)), height).
The comparison is over ℤ, before any cast. -/
def calculate_dimensions_from_spec (w h : Nat) (rw_q rh_q : ℚ) : Nat × Nat :=
  if (h : Int) ≤ ⌈(w : ℚ) / (rw_q / rh_q)⌉ then
    (w, (⌈(w : ℚ) / (rw_q / rh_q)⌉).toNat)
  else
    ((⌈(h : ℚ) * (rw_q / rh_q)⌉).toNat, h)

/-- The `x_offset` and `y_offset` computed by `try_fill_aspect_ratio`: both
start at zero; if the width grows, `x_offset` becomes
`(expected_width - width) / 2` in `i64` arithmetic, otherwise `y_offset`
becomes `(expected_height - height) / 2`. -/
def fill_offsets (img : Image) (aspect : ℚ × ℚ) : Int × Int :=
  if img.width < (calculate_dimensions img.width img.height aspect).1 then
    ((((calculate_dimensions img.width img.height aspect).1 : Int) - (img.width : Int)) / 2, 0)
  else
    (0, (((calculate_dimensions img.width img.height aspect).2 : Int) - (img.height : Int)) / 2)

/-- `try_fill_aspect_ratio` with the optional `expected_ratio` parameter:
compute the target dimensions and the padding offsets; if either offset is
positive, repaint onto the enlarged canvas, else leave the buffer alone. -/
def try_fill_aspect (img : Image) (expected : Option (ℚ × ℚ)) : Image :=
  match expected with
  | none => img
  | some aspect =>
      if 0 < (fill_offsets img aspect).1 ∨ 0 < (fill_offsets img aspect).2 then
        fill_to_given_dimensions img
          (calculate_dimensions img.width img.height aspect).1
          (calculate_dimensions img.width img.height aspect).2
          img.width img.height
          (fill_offsets img aspect).1.toNat
          (fill_offsets img aspect).2.toNat
      else img

theorem fill_to_given_dimensions_width (img : Image) (w h ow oh xo yo : Nat) :
    (fill_to_given_dimensions img w h ow oh xo yo).width = w := by
  rw [fill_to_given_dimensions, paste_canvas_width, fill_canvas_width]
  rfl

theorem fill_to_given_dimensions_height (img : Image) (w h ow oh xo yo : Nat) :
    (fill_to_given_dimensions img w h ow oh xo yo).height = h := by
  rw [fill_to_given_dimensions, paste_canvas_height, fill_canvas_height]
  rfl

theorem fill_to_given_dimensions_pix_interior (img : Image)
    (w h ow oh xo yo x y : Nat) (hx : x < ow) (hy : y < oh) :
    (fill_to_given_dimensions img w h ow oh xo yo).pix (x + xo) (y + yo) = img.pix x y := by
  rw [fill_to_given_dimensions, paste_canvas_pix,
    if_pos ⟨by omega, by omega, by omega, by omega⟩]
  have h1 : x + xo - xo = x := by omega
  have h2 : y + yo - yo = y := by omega
  rw [h1, h2]

/-- The computed target height is never below the original height: the first
branch of `calculate_dimensions` requires it and the second keeps the height. -/
theorem calculate_dimensions_height_ge (ow oh : Nat) (aspect : ℚ × ℚ) :
    oh ≤ (calculate_dimensions ow oh aspect).2 := by
  rw [calculate_dimensions]
  by_cases h : oh ≤ (⌈(ow : ℚ) / (aspect.1 / aspect.2)⌉).toNat
  · rw [if_pos h]; exact h
  · rw [if_neg h]

/-- Both padding offsets are nonnegative. -/
theorem fill_offsets_nonneg (img : Image) (aspect : ℚ × ℚ) :
    0 ≤ (fill_offsets img aspect).1 ∧ 0 ≤ (fill_offsets img aspect).2 := by
  rw [fill_offsets]
  by_cases h : img.width < (calculate_dimensions img.width img.height aspect).1
  · rw [if_pos h]
    constructor
    · apply Int.ediv_nonneg _ (by omega)
      omega
    · exact le_refl 0
  · rw [if_neg h]
    constructor
    · exact le_refl 0
    · apply Int.ediv_nonneg _ (by omega)
      have := calculate_dimensions_height_ge img.width img.height aspect
      omega

/-- When neither offset is positive the stage returns the buffer unchanged. -/
theorem try_fill_aspect_skip (img : Image) (aspect : ℚ × ℚ)
    (h : ¬ (0 < (fill_offsets img aspect).1 ∨ 0 < (fill_offsets img aspect).2)) :
    try_fill_aspect img (some aspect) = img := by
  rw [try_fill_aspect, if_neg h]

/-- When either offset is positive the stage repaints onto the target canvas. -/
theorem try_fill_aspect_fill (img : Image) (aspect : ℚ × ℚ)
    (h : 0 < (fill_offsets img aspect).1 ∨ 0 < (fill_offsets img aspect).2) :
    try_fill_aspect img (some aspect) =
      fill_to_given_dimensions img
        (calculate_dimensions img.width img.height aspect).1
        (calculate_dimensions img.width img.height aspect).2
        img.width img.height
        (fill_offsets img aspect).1.toNat
        (fill_offsets img aspect).2.toNat := by
  rw [try_fill_aspect, if_pos h]

theorem calculate_dimensions_vertical (ow oh : Nat) (aw ah : ℚ)
    (h : oh ≤ (⌈(ow : ℚ) / (aw / ah)⌉).toNat) :
    calculate_dimensions ow oh (aw, ah) = (ow, (⌈(ow : ℚ) / (aw / ah)⌉).toNat) := by
  rw [calculate_dimensions]
  exact if_pos h

theorem calculate_dimensions_horizontal (ow oh : Nat) (aw ah : ℚ)
    (h : ¬ oh ≤ (⌈(ow : ℚ) / (aw / ah)⌉).toNat) :
    calculate_dimensions ow oh (aw, ah) = ((⌈(oh : ℚ) * (aw / ah)⌉).toNat, oh) := by
  rw [calculate_dimensions]
  exact if_neg h

theorem fill_offsets_of_lt (img : Image) (aspect : ℚ × ℚ)
    (h : img.width < (calculate_dimensions img.width img.height aspect).1) :
    fill_offsets img aspect =
      ((((calculate_dimensions img.width img.height aspect).1 : Int) - (img.width : Int)) / 2,
        0) := by
  rw [fill_offsets]
  exact if_pos h

theorem fill_offsets_of_not_lt (img : Image) (aspect : ℚ × ℚ)
    (h : ¬ img.width < (calculate_dimensions img.width img.height aspect).1) :
    fill_offsets img aspect =
      (0,
        (((calculate_dimensions img.width img.height aspect).2 : Int) - (img.height : Int)) / 2) := by
  rw [fill_offsets]
  exact if_neg h

/-- C3: the target dimensions of the aspect-fill stage are computed exactly
as the spec states: candidate_height = ceil(width / (rw/rh)); if
candidate_height ≥ height the target is (width, candidate_height), else it is
(ceil(height * (rw/rh)), height). -/
theorem calculate_dimensions_matches_spec (w h : Nat) (rw_q rh_q : ℚ)
    (hrw : 0 < rw_q) (hrh : 0 < rh_q) :
    calculate_dimensions w h (rw_q, rh_q) = calculate_dimensions_from_spec w h rw_q rh_q := by
  have hnn : 0 ≤ ⌈(w : ℚ) / (rw_q / rh_q)⌉ :=
    Int.ceil_nonneg (div_nonneg (Nat.cast_nonneg w) (le_of_lt (div_pos hrw hrh)))
  have hiff : h ≤ (⌈(w : ℚ) / (rw_q / rh_q)⌉).toNat ↔ (h : Int) ≤ ⌈(w : ℚ) / (rw_q / rh_q)⌉ := by
    omega
  rw [calculate_dimensions, calculate_dimensions_from_spec]
  exact if_congr hiff rfl rfl

/-- Witness for `calculate_dimensions_matches_spec` at a concrete input. -/
theorem calculate_dimensions_matches_spec_witness :
    calculate_dimensions 1000 2000 (1, 1) = calculate_dimensions_from_spec 1000 2000 1 1 :=
  calculate_dimensions_matches_spec 1000 2000 1 1 one_pos one_pos

theorem calculate_dimensions_vertical_fst (ow oh : Nat) (aw ah : ℚ)
    (h : oh ≤ (⌈(ow : ℚ) / (aw / ah)⌉).toNat) :
    (calculate_dimensions ow oh (aw, ah)).1 = ow := by
  rw [calculate_dimensions_vertical ow oh aw ah h]

theorem calculate_dimensions_vertical_snd (ow oh : Nat) (aw ah : ℚ)
    (h : oh ≤ (⌈(ow : ℚ) / (aw / ah)⌉).toNat) :
    (calculate_dimensions ow oh (aw, ah)).2 = (⌈(ow : ℚ) / (aw / ah)⌉).toNat := by
  rw [calculate_dimensions_vertical ow oh aw ah h]

theorem fill_offsets_fst_of_lt (img : Image) (aspect : ℚ × ℚ)
    (h : img.width < (calculate_dimensions img.width img.height aspect).1) :
    (fill_offsets img aspect).1 =
      (((calculate_dimensions img.width img.height aspect).1 : Int) - (img.width : Int)) / 2 := by
  rw [fill_offsets_of_lt img aspect h]

theorem fill_offsets_snd_of_lt (img : Image) (aspect : ℚ × ℚ)
    (h : img.width < (calculate_dimensions img.width img.height aspect).1) :
    (fill_offsets img aspect).2 = 0 := by
  rw [fill_offsets_of_lt img aspect h]

theorem fill_offsets_fst_of_not_lt (img : Image) (aspect : ℚ × ℚ)
    (h : ¬ img.width < (calculate_dimensions img.width img.height aspect).1) :
    (fill_offsets img aspect).1 = 0 := by
  rw [fill_offsets_of_not_lt img aspect h]

theorem fill_offsets_snd_of_not_lt (img : Image) (aspect : ℚ × ℚ)
    (h : ¬ img.width < (calculate_dimensions img.width img.height aspect).1) :
    (fill_offsets img aspect).2 =
      (((calculate_dimensions img.width img.height aspect).2 : Int) - (img.height : Int)) / 2 := by
  rw [fill_offsets_of_not_lt img aspect h]

/-- A concrete 2 × 2 buffer whose aspect already matches the 1:1 target. -/
def img2x2 : Image := ⟨2, 2, fun x y => ⟨x, y, 3, 4⟩⟩

theorem ceil_2_div_one : ⌈((2 : Nat) : ℚ) / ((1 : ℚ) / 1)⌉ = 2 := by
  rw [Int.ceil_eq_iff]
  push_cast
  norm_num

theorem calc_dim_2_2 : calculate_dimensions 2 2 (1, 1) = (2, 2) := by
  have h := calculate_dimensions_vertical 2 2 1 1 (by rw [ceil_2_div_one]; omega)
  rw [h, ceil_2_div_one]
  rfl

theorem fill_offsets_img2x2 : fill_offsets img2x2 (1, 1) = (0, 0) := by
  have hw : img2x2.width = 2 := rfl
  have hh : img2x2.height = 2 := rfl
  have hc : calculate_dimensions img2x2.width img2x2.height (1, 1) = (2, 2) := by
    rw [hw, hh, calc_dim_2_2]
  have hc1 : (calculate_dimensions img2x2.width img2x2.height (1, 1)).1 = 2 := by rw [hc]
  have hnotlt : ¬ img2x2.width < (calculate_dimensions img2x2.width img2x2.height (1, 1)).1 := by
    rw [hc1, hw]
    omega
  have h1 := fill_offsets_fst_of_not_lt img2x2 (1, 1) hnotlt
  have h2 := fill_offsets_snd_of_not_lt img2x2 (1, 1) hnotlt
  have hc2 : (calculate_dimensions img2x2.width img2x2.height (1, 1)).2 = 2 := by rw [hc]
  rw [hc2, hh] at h2
  have : fill_offsets img2x2 (1, 1) = ((fill_offsets img2x2 (1, 1)).1, (fill_offsets img2x2 (1, 1)).2) := rfl
  rw [this, h1, h2]
  decide

/-- C8: for every buffer and target ratio, if the computed padding offset is
zero on both axes then the aspect-fill stage is skipped and the buffer
(dimensions and every byte of pixel data) is unchanged. -/
theorem fill_aspect_skip_when_zero (img : Image) (aw ah : ℚ)
    (h1 : (fill_offsets img (aw, ah)).1 = 0) (h2 : (fill_offsets img (aw, ah)).2 = 0) :
    try_fill_aspect img (some (aw, ah)) = img := by
  apply try_fill_aspect_skip
  rw [h1, h2]
  omega

/-- Witness for `fill_aspect_skip_when_zero`: a 2 × 2 buffer with ratio 1:1. -/
theorem fill_aspect_skip_when_zero_witness :
    try_fill_aspect img2x2 (some (1, 1)) = img2x2 :=
  fill_aspect_skip_when_zero img2x2 1 1 (by rw [fill_offsets_img2x2])
    (by rw [fill_offsets_img2x2])

/-- A concrete 3 × 4 buffer: ratio 2:3 computes a 3 × 5 target, one pixel
taller, yet the integer offset (5 − 4) / 2 = 0 makes the stage skip. -/
def img3x4 : Image := ⟨3, 4, fun x y => ⟨x, y, 1, 2⟩⟩

theorem ceil_3_div_twothirds : ⌈((3 : Nat) : ℚ) / ((2 : ℚ) / 3)⌉ = 5 := by
  rw [Int.ceil_eq_iff]
  push_cast
  norm_num

theorem calc_dim_3_4 : calculate_dimensions 3 4 (2, 3) = (3, 5) := by
  have h := calculate_dimensions_vertical 3 4 2 3 (by rw [ceil_3_div_twothirds]; omega)
  rw [h, ceil_3_div_twothirds]
  rfl

theorem fill_offsets_img3x4 : fill_offsets img3x4 (2, 3) = (0, 0) := by
  have hw : img3x4.width = 3 := rfl
  have hh : img3x4.height = 4 := rfl
  have hc : calculate_dimensions img3x4.width img3x4.height (2, 3) = (3, 5) := by
    rw [hw, hh, calc_dim_3_4]
  have hc1 : (calculate_dimensions img3x4.width img3x4.height (2, 3)).1 = 3 := by rw [hc]
  have hc2 : (calculate_dimensions img3x4.width img3x4.height (2, 3)).2 = 5 := by rw [hc]
  have hnotlt : ¬ img3x4.width < (calculate_dimensions img3x4.width img3x4.height (2, 3)).1 := by
    rw [hc1, hw]
    omega
  have h1 := fill_offsets_fst_of_not_lt img3x4 (2, 3) hnotlt
  have h2 := fill_offsets_snd_of_not_lt img3x4 (2, 3) hnotlt
  rw [hc2, hh] at h2
  have hpair : fill_offsets img3x4 (2, 3) =
      ((fill_offsets img3x4 (2, 3)).1, (fill_offsets img3x4 (2, 3)).2) := rfl
  rw [hpair, h1, h2]
  decide

/-- C10: there exist buffers and positive target ratios for which the
computed target dimensions exceed the source by exactly one pixel on the
growing axis, yet the aspect-fill stage still skips because the integer
padding offset is zero, so the output dimensions do not equal the computed
target: witnessed by a 3 × 4 buffer with ratio 2:3 (target 3 × 5). -/
theorem fill_aspect_offbyone_skip :
    calculate_dimensions img3x4.width img3x4.height (2, 3) = (3, 5) ∧
    (calculate_dimensions img3x4.width img3x4.height (2, 3)).2 = img3x4.height + 1 ∧
    fill_offsets img3x4 (2, 3) = (0, 0) ∧
    try_fill_aspect img3x4 (some (2, 3)) = img3x4 ∧
    (try_fill_aspect img3x4 (some (2, 3))).height ≠
      (calculate_dimensions img3x4.width img3x4.height (2, 3)).2 := by
  have hw : img3x4.width = 3 := rfl
  have hh : img3x4.height = 4 := rfl
  have hc : calculate_dimensions img3x4.width img3x4.height (2, 3) = (3, 5) := by
    rw [hw, hh, calc_dim_3_4]
  have hskip : try_fill_aspect img3x4 (some (2, 3)) = img3x4 := by
    apply try_fill_aspect_skip
    rw [fill_offsets_img3x4]
    decide
  refine ⟨hc, by rw [hc, hh], fill_offsets_img3x4, hskip, ?_⟩
  rw [hskip, hc, hh]
  decide

/-- C4: when the aspect-fill stage grows the canvas, the original content is
pasted at offset floor((target − original) / 2) on the growing axis and
offset 0 on the other axis, so the content is centered with any single
leftover pixel on the trailing side. -/
theorem fill_aspect_centers (img : Image) (aw ah : ℚ) (ew eh xo yo : Nat)
    (hcalc : calculate_dimensions img.width img.height (aw, ah) = (ew, eh))
    (hxo : xo = if img.width < ew then (ew - img.width) / 2 else 0)
    (hyo : yo = if img.width < ew then 0 else (eh - img.height) / 2)
    (hgrow : 0 < xo ∨ 0 < yo) :
    (try_fill_aspect img (some (aw, ah))).width = ew ∧
    (try_fill_aspect img (some (aw, ah))).height = eh ∧
    ∀ x y, x < img.width → y < img.height →
      (try_fill_aspect img (some (aw, ah))).pix (x + xo) (y + yo) = img.pix x y := by
  have hc1 : (calculate_dimensions img.width img.height (aw, ah)).1 = ew := by rw [hcalc]
  have hc2 : (calculate_dimensions img.width img.height (aw, ah)).2 = eh := by rw [hcalc]
  have hge := calculate_dimensions_height_ge img.width img.height (aw, ah)
  have hoffs1 : (fill_offsets img (aw, ah)).1 = (xo : Int) := by
    by_cases hlt : img.width < (calculate_dimensions img.width img.height (aw, ah)).1
    · rw [fill_offsets_fst_of_lt img (aw, ah) hlt, hc1, hxo,
        if_pos (show img.width < ew by omega)]
      omega
    · rw [fill_offsets_fst_of_not_lt img (aw, ah) hlt, hxo,
        if_neg (show ¬ img.width < ew by omega)]
      rfl
  have hoffs2 : (fill_offsets img (aw, ah)).2 = (yo : Int) := by
    by_cases hlt : img.width < (calculate_dimensions img.width img.height (aw, ah)).1
    · rw [fill_offsets_snd_of_lt img (aw, ah) hlt, hyo,
        if_pos (show img.width < ew by omega)]
      rfl
    · rw [fill_offsets_snd_of_not_lt img (aw, ah) hlt, hc2, hyo,
        if_neg (show ¬ img.width < ew by omega)]
      omega
  have hcond : 0 < (fill_offsets img (aw, ah)).1 ∨ 0 < (fill_offsets img (aw, ah)).2 := by
    rw [hoffs1, hoffs2]
    omega
  rw [try_fill_aspect_fill img (aw, ah) hcond, hoffs1, hoffs2, Int.toNat_natCast,
    Int.toNat_natCast]
  refine ⟨?_, ?_, ?_⟩
  · rw [fill_to_given_dimensions_width, hc1]
  · rw [fill_to_given_dimensions_height, hc2]
  · intro x y hx hy
    exact fill_to_given_dimensions_pix_interior img _ _ _ _ _ _ x y hx hy

/-- The scenario buffer: 1000 × 2000 with ratio 1:1 grows to 2000 × 2000 with
the content at x-offset 500. -/
def img1000x2000 : Image := ⟨1000, 2000, fun x y => ⟨x, y, 5, 6⟩⟩

theorem ceil_1000_div_one : ⌈((1000 : Nat) : ℚ) / ((1 : ℚ) / 1)⌉ = 1000 := by
  rw [Int.ceil_eq_iff]
  push_cast
  norm_num

theorem ceil_2000_mul_one : ⌈((2000 : Nat) : ℚ) * ((1 : ℚ) / 1)⌉ = 2000 := by
  rw [Int.ceil_eq_iff]
  push_cast
  norm_num

theorem calc_dim_1000_2000 : calculate_dimensions 1000 2000 (1, 1) = (2000, 2000) := by
  have h := calculate_dimensions_horizontal 1000 2000 1 1 (by rw [ceil_1000_div_one]; omega)
  rw [h, ceil_2000_mul_one]
  rfl

/-- Witness for `fill_aspect_centers`: the 1000 × 2000 scenario with ratio
1:1 produces a 2000 × 2000 canvas with the content at x-offset 500. -/
theorem fill_aspect_centers_witness :
    (try_fill_aspect img1000x2000 (some (1, 1))).width = 2000 ∧
    (try_fill_aspect img1000x2000 (some (1, 1))).height = 2000 ∧
    ∀ x y, x < 1000 → y < 2000 →
      (try_fill_aspect img1000x2000 (some (1, 1))).pix (x + 500) (y + 0) =
        img1000x2000.pix x y :=
  fill_aspect_centers img1000x2000 1 1 2000 2000 500 0 calc_dim_1000_2000
    (by decide) (by decide) (Or.inl (by decide))

/-- C9 (amended): the aspect-fill stage is idempotent whenever the first
application takes the vertical-pad branch (the width-based candidate height
is at least the current height); a second application with the same ratio
then recomputes zero offsets and leaves the buffer untouched. -/
theorem fill_aspect_idem_vertical (img : Image) (aw ah : ℚ)
    (hv : img.height ≤ (⌈(img.width : ℚ) / (aw / ah)⌉).toNat) :
    try_fill_aspect (try_fill_aspect img (some (aw, ah))) (some (aw, ah)) =
      try_fill_aspect img (some (aw, ah)) := by
  have hd1 := calculate_dimensions_vertical_fst img.width img.height aw ah hv
  have hd2 := calculate_dimensions_vertical_snd img.width img.height aw ah hv
  have hnotlt : ¬ img.width < (calculate_dimensions img.width img.height (aw, ah)).1 := by
    omega
  have hf1 := fill_offsets_fst_of_not_lt img (aw, ah) hnotlt
  by_cases hyo : 0 < (fill_offsets img (aw, ah)).2
  case neg =>
    have hskip : try_fill_aspect img (some (aw, ah)) = img :=
      try_fill_aspect_skip img (aw, ah) (by rw [hf1]; omega)
    rw [hskip]
    exact hskip
  case pos =>
    have hRw : (try_fill_aspect img (some (aw, ah))).width = img.width := by
      rw [try_fill_aspect_fill img (aw, ah) (Or.inr hyo), fill_to_given_dimensions_width, hd1]
    have hRh : (try_fill_aspect img (some (aw, ah))).height =
        (⌈(img.width : ℚ) / (aw / ah)⌉).toNat := by
      rw [try_fill_aspect_fill img (aw, ah) (Or.inr hyo), fill_to_given_dimensions_height, hd2]
    apply try_fill_aspect_skip
    have hv2 : (try_fill_aspect img (some (aw, ah))).height ≤
        (⌈((try_fill_aspect img (some (aw, ah))).width : ℚ) / (aw / ah)⌉).toNat := by
      rw [hRw, hRh]
    have hd1R := calculate_dimensions_vertical_fst (try_fill_aspect img (some (aw, ah))).width
      (try_fill_aspect img (some (aw, ah))).height aw ah hv2
    have hd2R := calculate_dimensions_vertical_snd (try_fill_aspect img (some (aw, ah))).width
      (try_fill_aspect img (some (aw, ah))).height aw ah hv2
    have hnotlt2 : ¬ (try_fill_aspect img (some (aw, ah))).width <
        (calculate_dimensions (try_fill_aspect img (some (aw, ah))).width
          (try_fill_aspect img (some (aw, ah))).height (aw, ah)).1 := by
      omega
    have hg1 := fill_offsets_fst_of_not_lt (try_fill_aspect img (some (aw, ah))) (aw, ah) hnotlt2
    have hg2 := fill_offsets_snd_of_not_lt (try_fill_aspect img (some (aw, ah))) (aw, ah) hnotlt2
    rw [hg1, hg2, hd2R, hRw, hRh]
    omega

/-- Witness for `fill_aspect_idem_vertical`: the 2 × 2 buffer with ratio 1:1. -/
theorem fill_aspect_idem_vertical_witness :
    try_fill_aspect (try_fill_aspect img2x2 (some (1, 1))) (some (1, 1)) =
      try_fill_aspect img2x2 (some (1, 1)) :=
  fill_aspect_idem_vertical img2x2 1 1 (by
    have hw : img2x2.width = 2 := rfl
    have hh : img2x2.height = 2 := rfl
    rw [hw, hh, ceil_2_div_one]
    omega)

/-- A 1 × 7 buffer: with ratio 1:3 the ceiling overshoot compounds, so the
aspect-fill stage is not idempotent on it. -/
def img1x7 : Image := ⟨1, 7, fun x y => ⟨x, y, 8, 8⟩⟩

theorem ceil_1_div_third : ⌈((1 : Nat) : ℚ) / ((1 : ℚ) / 3)⌉ = 3 := by
  rw [Int.ceil_eq_iff]
  push_cast
  norm_num

theorem ceil_7_mul_third : ⌈((7 : Nat) : ℚ) * ((1 : ℚ) / 3)⌉ = 3 := by
  rw [Int.ceil_eq_iff]
  push_cast
  norm_num

theorem ceil_3_div_third : ⌈((3 : Nat) : ℚ) / ((1 : ℚ) / 3)⌉ = 9 := by
  rw [Int.ceil_eq_iff]
  push_cast
  norm_num

theorem calc_dim_1_7 : calculate_dimensions 1 7 (1, 3) = (3, 7) := by
  have h := calculate_dimensions_horizontal 1 7 1 3 (by rw [ceil_1_div_third]; omega)
  rw [h, ceil_7_mul_third]
  rfl

/-- After the first application the buffer is 3 × 7. -/
theorem fill_aspect_img1x7_once_width :
    (try_fill_aspect img1x7 (some (1, 3))).width = 3 ∧
    (try_fill_aspect img1x7 (some (1, 3))).height = 7 := by
  have hw : img1x7.width = 1 := rfl
  have hh : img1x7.height = 7 := rfl
  have hc : calculate_dimensions img1x7.width img1x7.height (1, 3) = (3, 7) := by
    rw [hw, hh, calc_dim_1_7]
  have hc1 : (calculate_dimensions img1x7.width img1x7.height (1, 3)).1 = 3 := by rw [hc]
  have hc2 : (calculate_dimensions img1x7.width img1x7.height (1, 3)).2 = 7 := by rw [hc]
  have hlt : img1x7.width < (calculate_dimensions img1x7.width img1x7.height (1, 3)).1 := by
    rw [hc1, hw]
    omega
  have hfo1 : (fill_offsets img1x7 (1, 3)).1 = 1 := by
    rw [fill_offsets_fst_of_lt img1x7 (1, 3) hlt, hc1, hw]
    decide
  have hcond : 0 < (fill_offsets img1x7 (1, 3)).1 ∨ 0 < (fill_offsets img1x7 (1, 3)).2 :=
    Or.inl (by rw [hfo1]; decide)
  constructor
  · rw [try_fill_aspect_fill img1x7 (1, 3) hcond, fill_to_given_dimensions_width, hc1]
  · rw [try_fill_aspect_fill img1x7 (1, 3) hcond, fill_to_given_dimensions_height, hc2]

/-- After a second application the buffer is 3 × 9: the stage grew again. -/
theorem fill_aspect_img1x7_twice_height :
    (try_fill_aspect (try_fill_aspect img1x7 (some (1, 3))) (some (1, 3))).height = 9 := by
  have hRw := fill_aspect_img1x7_once_width.1
  have hRh := fill_aspect_img1x7_once_width.2
  have hv2 : (try_fill_aspect img1x7 (some (1, 3))).height ≤
      (⌈((try_fill_aspect img1x7 (some (1, 3))).width : ℚ) / ((1 : ℚ) / 3)⌉).toNat := by
    rw [hRw, hRh, ceil_3_div_third]
    omega
  have hc1R := calculate_dimensions_vertical_fst (try_fill_aspect img1x7 (some (1, 3))).width
    (try_fill_aspect img1x7 (some (1, 3))).height 1 3 hv2
  have hc2R := calculate_dimensions_vertical_snd (try_fill_aspect img1x7 (some (1, 3))).width
    (try_fill_aspect img1x7 (some (1, 3))).height 1 3 hv2
  have hceil : (⌈((try_fill_aspect img1x7 (some (1, 3))).width : ℚ) / ((1 : ℚ) / 3)⌉).toNat = 9 := by
    rw [hRw, ceil_3_div_third]
    rfl
  rw [hceil] at hc2R
  have hnotlt2 : ¬ (try_fill_aspect img1x7 (some (1, 3))).width <
      (calculate_dimensions (try_fill_aspect img1x7 (some (1, 3))).width
        (try_fill_aspect img1x7 (some (1, 3))).height (1, 3)).1 := by
    omega
  have hfo2 : (fill_offsets (try_fill_aspect img1x7 (some (1, 3))) (1, 3)).2 = 1 := by
    rw [fill_offsets_snd_of_not_lt (try_fill_aspect img1x7 (some (1, 3))) (1, 3) hnotlt2,
      hc2R, hRh]
    decide
  have hcond2 : 0 < (fill_offsets (try_fill_aspect img1x7 (some (1, 3))) (1, 3)).1 ∨
      0 < (fill_offsets (try_fill_aspect img1x7 (some (1, 3))) (1, 3)).2 :=
    Or.inr (by rw [hfo2]; decide)
  rw [try_fill_aspect_fill (try_fill_aspect img1x7 (some (1, 3))) (1, 3) hcond2,
    fill_to_given_dimensions_height, hc2R]

/-- Counterexample to C9 as stated: on the 1 × 7 buffer with ratio 1:3 the
first application yields a 3 × 7 buffer and a second application yields a
3 × 9 buffer, so applying the stage twice is not the same as applying it
once. -/
theorem fill_aspect_not_idempotent :
    ¬ Image.identical
        (try_fill_aspect (try_fill_aspect img1x7 (some (1, 3))) (some (1, 3)))
        (try_fill_aspect img1x7 (some (1, 3))) := by
  intro hid
  have h9 := fill_aspect_img1x7_twice_height
  have h7 := fill_aspect_img1x7_once_width.2
  have heq := hid.2.1
  omega

/-- Rounding to the nearest integer with ties toward the smaller integer,
the rounding the spec's resize formula uses (its 4000 × 3000 scenario
requires round(1012.5) = 1012). -/
def round_half_down (q : ℚ) : Int := ⌈q - 1 / 2⌉

theorem round_half_down_natCast (n : Nat) : round_half_down ((n : Nat) : ℚ) = n := by
  rw [round_half_down, Int.ceil_eq_iff]
  constructor
  · push_cast
    linarith
  · push_cast
    linarith

theorem round_half_down_mono {a b : ℚ} (h : a ≤ b) :
    round_half_down a ≤ round_half_down b :=
  Int.ceil_mono (by linarith)

/-- Modelled from the spec: `DynamicImage::resize` of the external `image`
crate (not part of this repository's sources) performs a bounding-box
(fit-within) scale into a `size × size` box: both dimensions scale by the
same factor, the longest side becomes `size` and the other becomes the
rounded scaled value `round(other * size / longest)`.  The resampled pixel
content (Lanczos3) is left unspecified; no claim below depends on it. -/
def resize (img : Image) (size : Nat) : Image :=
  if img.height ≤ img.width then
    ⟨size, (round_half_down ((img.height : ℚ) * (size : ℚ) / (img.width : ℚ))).toNat, img.pix⟩
  else
    ⟨(round_half_down ((img.width : ℚ) * (size : ℚ) / (img.height : ℚ))).toNat, size, img.pix⟩

/-- `try_longest_side` with the optional `expected_longest_side` parameter:
when requested, replace the buffer by
`self.image.resize(longest_side, longest_side, Lanczos3)`. -/
def try_longest_side (img : Image) (expected_longest_side : Option Nat) : Image :=
  match expected_longest_side with
  | none => img
  | some longest => resize img longest

/-- C1: for every buffer with positive dimensions and every positive target
longest-side length L, after the longest-side resize stage
max(width, height) = L and min(width, height) = round(other * L / longest). -/
theorem longest_side_spec (img : Image) (L : Nat) (hL : 0 < L)
    (hw : 0 < img.width) (hh : 0 < img.height) :
    max (try_longest_side img (some L)).width (try_longest_side img (some L)).height = L ∧
    min (try_longest_side img (some L)).width (try_longest_side img (some L)).height =
      (round_half_down (((min img.width img.height : Nat) : ℚ) * (L : ℚ) /
        ((max img.width img.height : Nat) : ℚ))).toNat := by
  by_cases hcase : img.height ≤ img.width
  · have hres : try_longest_side img (some L) =
        ⟨L, (round_half_down ((img.height : ℚ) * (L : ℚ) / (img.width : ℚ))).toNat, img.pix⟩ := by
      rw [try_longest_side, resize, if_pos hcase]
    have hwpos : (0 : ℚ) < (img.width : ℚ) := by exact_mod_cast hw
    have hrle : (round_half_down ((img.height : ℚ) * (L : ℚ) / (img.width : ℚ))).toNat ≤ L := by
      have hq : (img.height : ℚ) * (L : ℚ) / (img.width : ℚ) ≤ ((L : Nat) : ℚ) := by
        rw [div_le_iff₀ hwpos, mul_comm ((L : Nat) : ℚ) (img.width : ℚ)]
        have hc : (img.height : ℚ) ≤ (img.width : ℚ) := by exact_mod_cast hcase
        exact mul_le_mul_of_nonneg_right hc (by positivity)
      have hr := round_half_down_mono hq
      rw [round_half_down_natCast] at hr
      omega
    rw [hres]
    refine ⟨?_, ?_⟩
    · show max L ((round_half_down ((img.height : ℚ) * (L : ℚ) / (img.width : ℚ))).toNat) = L
      exact max_eq_left hrle
    · show min L ((round_half_down ((img.height : ℚ) * (L : ℚ) / (img.width : ℚ))).toNat) =
        (round_half_down (((min img.width img.height : Nat) : ℚ) * (L : ℚ) /
          ((max img.width img.height : Nat) : ℚ))).toNat
      rw [min_eq_right hrle, min_eq_right hcase, max_eq_left hcase]
  · have hcase2 : img.width ≤ img.height := le_of_lt (Nat.lt_of_not_le hcase)
    have hres : try_longest_side img (some L) =
        ⟨(round_half_down ((img.width : ℚ) * (L : ℚ) / (img.height : ℚ))).toNat, L, img.pix⟩ := by
      rw [try_longest_side, resize, if_neg hcase]
    have hhpos : (0 : ℚ) < (img.height : ℚ) := by exact_mod_cast hh
    have hrle : (round_half_down ((img.width : ℚ) * (L : ℚ) / (img.height : ℚ))).toNat ≤ L := by
      have hq : (img.width : ℚ) * (L : ℚ) / (img.height : ℚ) ≤ ((L : Nat) : ℚ) := by
        rw [div_le_iff₀ hhpos, mul_comm ((L : Nat) : ℚ) (img.height : ℚ)]
        have hc : (img.width : ℚ) ≤ (img.height : ℚ) := by exact_mod_cast hcase2
        exact mul_le_mul_of_nonneg_right hc (by positivity)
      have hr := round_half_down_mono hq
      rw [round_half_down_natCast] at hr
      omega
    rw [hres]
    refine ⟨?_, ?_⟩
    · show max ((round_half_down ((img.width : ℚ) * (L : ℚ) / (img.height : ℚ))).toNat) L = L
      exact max_eq_right hrle
    · show min ((round_half_down ((img.width : ℚ) * (L : ℚ) / (img.height : ℚ))).toNat) L =
        (round_half_down (((min img.width img.height : Nat) : ℚ) * (L : ℚ) /
          ((max img.width img.height : Nat) : ℚ))).toNat
      rw [min_eq_left hrle, min_eq_left hcase2, max_eq_right hcase2]

/-- The 4000 × 3000 scenario buffer for the longest-side resize. -/
def img4000x3000 : Image := ⟨4000, 3000, fun x y => ⟨x, y, 0, 255⟩⟩

/-- Witness for `longest_side_spec`: 4000 × 3000 with longest side 1350
becomes 1350 × 1012 (1012 = round(3000 * 1350 / 4000)). -/
theorem longest_side_spec_witness :
    max (try_longest_side img4000x3000 (some 1350)).width
      (try_longest_side img4000x3000 (some 1350)).height = 1350 ∧
    min (try_longest_side img4000x3000 (some 1350)).width
      (try_longest_side img4000x3000 (some 1350)).height = 1012 := by
  have h := longest_side_spec img4000x3000 1350 (by decide) (by decide) (by decide)
  refine ⟨h.1, ?_⟩
  rw [h.2]
  have hmin : min img4000x3000.width img4000x3000.height = 3000 := by decide
  have hmax : max img4000x3000.width img4000x3000.height = 4000 := by decide
  rw [hmin, hmax]
  have hc : ⌈((3000 : Nat) : ℚ) * ((1350 : Nat) : ℚ) / ((4000 : Nat) : ℚ) - 1 / 2⌉ =
      (1012 : Int) := by
    rw [Int.ceil_eq_iff]
    push_cast
    norm_num
  rw [round_half_down, hc]
  rfl

/-- The error taxonomy at the pipeline boundary, the two failure points the
driver surfaces: a decode failure at construction or an encode failure at
the terminal save. -/
inductive ImageError where
  | decodeError (msg : String)
  | encodeError (msg : String)
deriving DecidableEq, Repr

/-- The pipeline driver `ImageManipulator`: the held buffer, the output
destination, and the three optional transform requests (all `None` by
default, as in `..Default::default()`).  The `expected_ratio` field of the
source is named `expected_aspect` here. -/
structure ImageManipulator where
  image : Image
  output : String
  expected_aspect : Option (ℚ × ℚ) := none
  expected_longest_side : Option Nat := none
  expected_border_spacing : Option Nat := none

/-- `ImageManipulator::new`: decode the input path into a buffer
(`image::open(input)?`), propagating a decode failure verbatim.  Decoding is
external I/O, so the decoder is a parameter mapping paths to results. -/
def ImageManipulator.new (open_file : String → Except ImageError Image)
    (input output : String) : Except ImageError ImageManipulator :=
  match open_file input with
  | .error e => .error e
  | .ok image => .ok { image := image, output := output }

/-- Builder method `add_border`: record the requested border spacing. -/
def ImageManipulator.add_border (m : ImageManipulator) (spacing : Nat) :
    ImageManipulator :=
  { m with expected_border_spacing := some spacing }

/-- Builder method `fill_to_aspect_ratio` (named `fill_to_aspect` here):
record the requested target proportions. -/
def ImageManipulator.fill_to_aspect (m : ImageManipulator) (w h : ℚ) :
    ImageManipulator :=
  { m with expected_aspect := some (w, h) }

/-- Builder method `longest_side`: record the requested longest-side target. -/
def ImageManipulator.longest_side (m : ImageManipulator) (size : Nat) :
    ImageManipulator :=
  { m with expected_longest_side := some size }

/-- The three stages exactly as sequenced inside `save()`:
`try_add_border(); try_fill_aspect_ratio(); try_longest_side()`. -/
def ImageManipulator.apply_stages (m : ImageManipulator) : Image :=
  try_longest_side
    (try_fill_aspect (try_add_border m.image m.expected_border_spacing) m.expected_aspect)
    m.expected_longest_side

/-- `save()`: apply the pending stages to the held buffer, then perform the
single encode-to-path write (`self.image.save(self.output)`).  Encoding is
external I/O, so the encoder is a parameter; the second component is the log
of file writes performed (destination path and written buffer), which is
empty when the encode fails. -/
def ImageManipulator.save (m : ImageManipulator)
    (encode : Image → String → Except ImageError Unit) :
    Except ImageError Unit × List (String × Image) :=
  match encode m.apply_stages m.output with
  | .error e => (.error e, [])
  | .ok _ => (.ok (), [(m.output, m.apply_stages)])

/-- C6: the terminal apply-and-save fails with the first error encountered —
a decode failure at construction or an encode failure at the terminal save;
the stage functions are total Lean functions that contribute no error, so the
save result errs exactly when the encoder errs; and the save is the single
point of I/O: a failing save writes nothing (the source file is untouched)
and a successful save writes exactly the one output file, never an
intermediate stage result. -/
theorem pipeline_error_propagation
    (open_file : String → Except ImageError Image)
    (encode : Image → String → Except ImageError Unit)
    (input output : String) (m : ImageManipulator) (e : ImageError) :
    (ImageManipulator.new open_file input output = .error e ↔
      open_file input = .error e) ∧
    ((m.save encode).1 = .error e ↔ encode m.apply_stages m.output = .error e) ∧
    ((m.save encode).1 = .error e → (m.save encode).2 = []) ∧
    (∀ p written, (p, written) ∈ (m.save encode).2 →
      p = m.output ∧ written = m.apply_stages) ∧
    (m.save encode).2.length ≤ 1 := by
  constructor
  · cases ho : open_file input <;> simp [ImageManipulator.new, ho]
  refine ⟨?_, ?_, ?_, ?_⟩ <;> cases he : encode m.apply_stages m.output <;>
    simp [ImageManipulator.save, he]

/-- Concrete failing decoder for the witness. -/
def open_fail : String → Except ImageError Image :=
  fun _ => .error (.decodeError "unsupported format")

/-- Concrete failing encoder for the witness. -/
def encode_fail : Image → String → Except ImageError Unit :=
  fun _ _ => .error (.encodeError "destination unwritable")

/-- A concrete driver holding a buffer and an output path. -/
def m0 : ImageManipulator := { image := img2x1, output := "out.png" }

/-- Witness for `pipeline_error_propagation`: a failing decode surfaces at
construction, and a failing encode surfaces at save having written nothing. -/
theorem pipeline_error_propagation_witness :
    ImageManipulator.new open_fail "in.png" "out.png" =
      .error (.decodeError "unsupported format") ∧
    (m0.save encode_fail).1 = .error (.encodeError "destination unwritable") ∧
    (m0.save encode_fail).2 = [] := by
  have hdec := pipeline_error_propagation open_fail encode_fail "in.png" "out.png" m0
    (.decodeError "unsupported format")
  have henc := pipeline_error_propagation open_fail encode_fail "in.png" "out.png" m0
    (.encodeError "destination unwritable")
  have h1 : (m0.save encode_fail).1 = .error (.encodeError "destination unwritable") :=
    henc.2.1.2 rfl
  exact ⟨hdec.1.2 rfl, h1, henc.2.2.1 h1⟩

/-- One builder call made on the driver before `save()`. -/
inductive BuilderCall where
  | border (spacing : Nat)
  | fill (w h : ℚ)
  | longest (size : Nat)
deriving DecidableEq

/-- Which of the three optional parameters a builder call sets. -/
def BuilderCall.kind : BuilderCall → Nat
  | .border _ => 0
  | .fill _ _ => 1
  | .longest _ => 2

/-- Apply one builder call to the driver. -/
def applyCall (m : ImageManipulator) : BuilderCall → ImageManipulator
  | .border spacing => m.add_border spacing
  | .fill w h => m.fill_to_aspect w h
  | .longest size => m.longest_side size

/-- Apply a sequence of builder calls left to right, as caller code chains
them before the terminal `save()`. -/
def applyCalls (m : ImageManipulator) (l : List BuilderCall) : ImageManipulator :=
  l.foldl applyCall m

theorem applyCalls_cons (m : ImageManipulator) (c : BuilderCall) (l : List BuilderCall) :
    applyCalls m (c :: l) = applyCalls (applyCall m c) l := rfl

/-- Builder calls that set different parameters commute. -/
theorem applyCall_comm (m : ImageManipulator) (a b : BuilderCall)
    (h : BuilderCall.kind a ≠ BuilderCall.kind b) :
    applyCall (applyCall m a) b = applyCall (applyCall m b) a := by
  cases a <;> cases b <;> first
    | rfl
    | exact absurd rfl h

/-- Permuting a sequence of builder calls that touch pairwise different
parameters does not change the resulting driver state. -/
theorem applyCalls_perm (l1 l2 : List BuilderCall) (hp : l1.Perm l2) :
    l1.Pairwise (fun a b => BuilderCall.kind a ≠ BuilderCall.kind b) →
    ∀ m : ImageManipulator, applyCalls m l1 = applyCalls m l2 := by
  induction hp with
  | nil =>
      intro _ m
      rfl
  | cons x p ih =>
      intro hd m
      rw [applyCalls_cons, applyCalls_cons]
      exact ih (List.pairwise_cons.1 hd).2 (applyCall m x)
  | swap x y l =>
      intro hd m
      rw [applyCalls_cons, applyCalls_cons, applyCalls_cons, applyCalls_cons,
        applyCall_comm m y x ((List.pairwise_cons.1 hd).1 x (List.mem_cons_self x l))]
  | trans p1 p2 ih1 ih2 =>
      intro hd m
      rw [ih1 hd m, ih2 ((p1.pairwise_iff (fun h e => h e.symm)).1 hd) m]

/-- C7: for every driver state and every order of the builder calls (a
permutation of calls touching pairwise different parameters), the resulting
driver is the same, and its stages are applied in the fixed order border →
aspect-fill → resize regardless of that order. -/
theorem stages_fixed_order (m : ImageManipulator) (l1 l2 : List BuilderCall)
    (hp : l1.Perm l2)
    (hd : l1.Pairwise (fun a b => BuilderCall.kind a ≠ BuilderCall.kind b)) :
    applyCalls m l1 = applyCalls m l2 ∧
    (applyCalls m l1).apply_stages =
      try_longest_side
        (try_fill_aspect
          (try_add_border (applyCalls m l1).image (applyCalls m l1).expected_border_spacing)
          (applyCalls m l1).expected_aspect)
        (applyCalls m l1).expected_longest_side :=
  ⟨applyCalls_perm l1 l2 hp hd m, rfl⟩

/-- Witness for `stages_fixed_order`: requesting border, fill and resize in
two different orders yields the same driver state. -/
theorem stages_fixed_order_witness :
    applyCalls m0 [BuilderCall.border 20, BuilderCall.fill 1 1, BuilderCall.longest 1350] =
      applyCalls m0 [BuilderCall.fill 1 1, BuilderCall.border 20, BuilderCall.longest 1350] :=
  (stages_fixed_order m0
    [BuilderCall.border 20, BuilderCall.fill 1 1, BuilderCall.longest 1350]
    [BuilderCall.fill 1 1, BuilderCall.border 20, BuilderCall.longest 1350]
    (List.Perm.swap (BuilderCall.fill 1 1) (BuilderCall.border 20) [BuilderCall.longest 1350])
    (by decide)).1
